import Mathlib

/-!
Verification development for the pdf-diff-detection repository.

The data shapes (`BoundingBox`, `DiffType`, `DiffItem`, `PageDiff`,
`CompareResponse`) are embedded from `frontend/src/types/api.ts`.  The
frontend helpers (`getCurrentPageDiffs`, `getDiffTypeLabel`,
`getColorForDiffType`, the overlay-drawing loop) are embedded from
`frontend/src/App.tsx`, `frontend/src/components/DiffList.tsx` and the
PdfViewer component.  The backend diff engine (FastAPI app) is not part of
the repository snapshot, so the engine pipeline (page aligner, sequence
diff, change classifier, result assembler) is modelled from the
specification, as marked on each definition.
-/

/-- Axis-aligned bounding box, from `BoundingBox` in `types/api.ts`
(fields x1, y1, x2, y2).  Coordinates are modelled as integers; no claim
depends on coordinate arithmetic, the boxes are only carried through. -/
structure BoundingBox where
  x1 : Int
  y1 : Int
  x2 : Int
  y2 : Int
deriving DecidableEq, Repr

/-- The closed diff-type variant, from `DiffType` in `types/api.ts`:
`'added' | 'removed' | 'modified'`. -/
inductive DiffType where
  | added
  | removed
  | modified
deriving DecidableEq, Repr

/-- One diff record, from `DiffItem` in `types/api.ts`: a type from the
closed variant, nullable old/new text, and lists of bounding boxes. -/
structure DiffItem where
  type : DiffType
  old_text : Option String
  new_text : Option String
  old_bboxes : List BoundingBox
  new_bboxes : List BoundingBox
deriving DecidableEq, Repr

/-- Per-page diff list, from `PageDiff` in `types/api.ts`. -/
structure PageDiff where
  page_number : Int
  diffs : List DiffItem
deriving DecidableEq, Repr

/-- The comparison result, from `CompareResponse` in `types/api.ts`. -/
structure CompareResponse where
  pages : List PageDiff
  old_page_count : Nat
  new_page_count : Nat
deriving DecidableEq, Repr

/-- Modelled from the spec: one OCR'd text unit (`TextElement`, spec section 3):
trimmed content plus a normalized bounding box.  The `order_key` is derived
from the box (top-to-bottom then left-to-right), so it is not stored. -/
structure TextElement where
  content : String
  bbox : BoundingBox
deriving DecidableEq, Repr

/-- Modelled from the spec: one page of a document (`Page`, spec section 3):
elements in extraction order plus physical dimensions. -/
structure Page where
  elements : List TextElement
  width : Int
  height : Int
deriving DecidableEq, Repr

/-- Modelled from the spec: a document is an ordered sequence of pages
(`Document`, spec section 3); `page_count` is the length of that list. -/
structure Document where
  pages : List Page
deriving DecidableEq, Repr

/-- Modelled from the spec: strict reading-order comparison of two elements,
top-to-bottom then left-to-right (spec section 4.2 `order_key`). -/
def keyLT (a b : TextElement) : Bool :=
  a.bbox.y1 < b.bbox.y1 || (a.bbox.y1 = b.bbox.y1 && a.bbox.x1 < b.bbox.x1)

/-- Modelled from the spec: stable insertion of an element into a
reading-order-sorted list of elements extracted after it: the element is
placed before every existing element that is not strictly earlier in
reading order, so on ties the earlier-extracted element stays first
(spec section 4.2). -/
def insertElem (x : TextElement) : List TextElement → List TextElement
  | [] => [x]
  | y :: ys => if keyLT y x then y :: insertElem x ys else x :: y :: ys

/-- Modelled from the spec: stable sort of a page's elements by reading
order, producing the canonical sequence used by the diff engine
(spec section 4.2). -/
def sortElements : List TextElement → List TextElement
  | [] => []
  | x :: xs => insertElem x (sortElements xs)

/-- Modelled from the spec: the canonical element sequence of an optional
page (absent pages contribute the empty sequence, spec section 4.2). -/
def pageSeq : Option Page → List TextElement
  | none => []
  | some p => sortElements p.elements

/-- The canonical content-string sequence of an optional page. -/
def contentSeq (p : Option Page) : List String :=
  (pageSeq p).map (·.content)

/-- Modelled from the spec: one operation of a minimal edit script
(`equal`, `delete`, `insert`; spec section 4.3). -/
inductive EditOp where
  | eq (oldE newE : TextElement)
  | del (e : TextElement)
  | ins (e : TextElement)
deriving DecidableEq, Repr

/-- Modelled from the spec: length of a longest common subsequence of the
two element sequences under content-only equality (spec section 4.3),
written with an explicit fuel bound so that it is structurally recursive;
every recursive call shrinks the combined length by at least one, so a
fuel of the combined length is always sufficient. -/
def lcsLenFuel : Nat → List TextElement → List TextElement → Nat
  | _, [], _ => 0
  | _, _ :: _, [] => 0
  | 0, _ :: _, _ :: _ => 0
  | f + 1, a :: as, b :: bs =>
    if a.content = b.content then lcsLenFuel f as bs + 1
    else max (lcsLenFuel f as (b :: bs)) (lcsLenFuel f (a :: as) bs)

/-- Length of a longest common subsequence under content-only equality. -/
def lcsLen (xs ys : List TextElement) : Nat :=
  lcsLenFuel (xs.length + ys.length) xs ys

/-- Modelled from the spec: LCS-based shortest edit script between two
element sequences with content-only equality; ties prefer deletion first,
keeping matched runs as early as possible (spec section 4.3).  One-sided
inputs short-circuit to a pure insert or pure delete run.  Written with an
explicit fuel bound so that it is structurally recursive; a fuel of the
combined length is always sufficient. -/
def diffSeqFuel : Nat → List TextElement → List TextElement → List EditOp
  | _, [], ys => ys.map .ins
  | _, x :: xs, [] => (x :: xs).map .del
  | 0, _ :: _, _ :: _ => []
  | f + 1, x :: xs, y :: ys =>
    if x.content = y.content then .eq x y :: diffSeqFuel f xs ys
    else if lcsLen (x :: xs) ys ≤ lcsLen xs (y :: ys) then
      .del x :: diffSeqFuel f xs (y :: ys)
    else
      .ins y :: diffSeqFuel f (x :: xs) ys

/-- The edit script between two element sequences. -/
def diffSeq (xs ys : List TextElement) : List EditOp :=
  diffSeqFuel (xs.length + ys.length) xs ys

/-- Modelled from the spec: concatenation of the contents of a run of
elements, in order (spec section 8, insert-only property). -/
def concatTexts (es : List TextElement) : String :=
  es.foldr (fun e acc => e.content ++ acc) ""

/-- Modelled from the spec: whitespace tokenization used by the
token-overlap similarity metric (spec section 4.4). -/
def tokenizeAux : List Char → List Char → List String
  | [], acc => if acc.isEmpty then [] else [String.mk acc.reverse]
  | c :: cs, acc =>
    if c = ' ' then
      if acc.isEmpty then tokenizeAux cs [] else String.mk acc.reverse :: tokenizeAux cs []
    else tokenizeAux cs (c :: acc)

/-- Tokens of a string, split on spaces. -/
def tokenize (s : String) : List String :=
  tokenizeAux s.data []

/-- Modelled from the spec: token-overlap similarity ratio in [0,1]
between two texts (spec section 4.4 offers "token-overlap ratio" as the
metric): the number of distinct shared tokens over the larger distinct
token count; two textless runs count as fully similar. -/
def similarity (a b : String) : ℚ :=
  if max (tokenize a).toFinset.card (tokenize b).toFinset.card = 0 then 1
  else (((tokenize a).toFinset ∩ (tokenize b).toFinset).card : ℚ) /
    ((max (tokenize a).toFinset.card (tokenize b).toFinset.card : Nat) : ℚ)

/-- Modelled from the spec: the classifier's executable threshold test,
written with cross-multiplied integers so that it evaluates by machine
arithmetic; `thresholdReached θ a b` decides `θ ≤ similarity a b` (proved
below as `thresholdReached_iff`). -/
def thresholdReached (θ : ℚ) (a b : String) : Bool :=
  if max (tokenize a).toFinset.card (tokenize b).toFinset.card = 0 then
    decide (θ.num ≤ (θ.den : Int))
  else
    decide (θ.num * ((max (tokenize a).toFinset.card (tokenize b).toFinset.card : Nat) : Int) ≤
      ((((tokenize a).toFinset ∩ (tokenize b).toFinset).card : Nat) : Int) * (θ.den : Int))

/-- Modelled from the spec: the recommended similarity threshold 0.3
(spec section 4.4), kept tunable as a parameter of the classifier. -/
def SIMILARITY_THRESHOLD : ℚ := mkRat 3 10

/-- Modelled from the spec: an aggregated `added` record for a contiguous
insert run (spec sections 3 and 4.4): no old text, empty old boxes. -/
def mkAdded (run : List TextElement) : DiffItem :=
  { type := .added
    old_text := none
    new_text := some (concatTexts run)
    old_bboxes := []
    new_bboxes := run.map (·.bbox) }

/-- Modelled from the spec: an aggregated `removed` record for a contiguous
delete run (spec sections 3 and 4.4): no new text, empty new boxes. -/
def mkRemoved (run : List TextElement) : DiffItem :=
  { type := .removed
    old_text := some (concatTexts run)
    new_text := none
    old_bboxes := run.map (·.bbox)
    new_bboxes := [] }

/-- Modelled from the spec: a merged `modified` record for an adjacent
delete-run / insert-run pair (spec section 4.4): both texts present. -/
def mkModified (dels inss : List TextElement) : DiffItem :=
  { type := .modified
    old_text := some (concatTexts dels)
    new_text := some (concatTexts inss)
    old_bboxes := dels.map (·.bbox)
    new_bboxes := inss.map (·.bbox) }

/-- Modelled from the spec: emit the records for a pending delete run and
a pending insert run (spec section 4.4): one-sided runs become `removed` or
`added`; an adjacent pair merges into `modified` when the similarity of the
concatenated texts reaches the threshold, and otherwise stays as a
`removed` record followed by an `added` record. -/
def flushPending (θ : ℚ) (dels inss : List TextElement) : List DiffItem :=
  match dels, inss with
  | [], [] => []
  | d :: ds, [] => [mkRemoved (d :: ds)]
  | [], i :: is => [mkAdded (i :: is)]
  | d :: ds, i :: is =>
    if thresholdReached θ (concatTexts (d :: ds)) (concatTexts (i :: is)) then
      [mkModified (d :: ds) (i :: is)]
    else
      [mkRemoved (d :: ds), mkAdded (i :: is)]

/-- Modelled from the spec: the change classifier (spec section 4.4).
Walks the edit script left to right, accumulating the current delete run
and the insert run immediately following it; `equal` operations and the
start of a new delete run flush the pending runs through `flushPending`. -/
def classifyAux (θ : ℚ) : List EditOp → List TextElement → List TextElement → List DiffItem
  | [], dels, inss => flushPending θ dels inss
  | .eq _ _ :: rest, dels, inss => flushPending θ dels inss ++ classifyAux θ rest [] []
  | .del e :: rest, dels, [] => classifyAux θ rest (dels ++ [e]) []
  | .del e :: rest, dels, i :: is => flushPending θ dels (i :: is) ++ classifyAux θ rest [e] []
  | .ins e :: rest, dels, inss => classifyAux θ rest dels (inss ++ [e])

/-- Modelled from the spec: classify a whole edit script into diff
records (spec section 4.4). -/
def classifyOps (θ : ℚ) (ops : List EditOp) : List DiffItem :=
  classifyAux θ ops [] []

/-- Modelled from the spec: the per-page pipeline (spec sections 4.2-4.4):
sort both sides into canonical sequences, diff them, classify the script. -/
def diffPage (θ : ℚ) (oldP newP : Option Page) : List DiffItem :=
  classifyOps θ (diffSeq (pageSeq oldP) (pageSeq newP))

/-- Modelled from the spec: the page aligner (spec section 4.2): pairs
pages positionally, one pair for every page number from 1 to the larger
page count, absent sides represented as `none`. -/
def alignPages (o n : Document) : List (Option Page × Option Page) :=
  (List.range (max o.pages.length n.pages.length)).map
    (fun i => (o.pages[i]?, n.pages[i]?))

/-- Modelled from the spec: the result assembler (spec section 4.5) and the
whole comparison: every page number from 1 to the larger page count appears
in the result (the "include empty pages" policy), with the page counts of
the two input documents. -/
def compareDocs (θ : ℚ) (o n : Document) : CompareResponse :=
  { pages :=
      (List.range (max o.pages.length n.pages.length)).map
        (fun i => { page_number := Int.ofNat i + 1
                    diffs := diffPage θ o.pages[i]? n.pages[i]? })
    old_page_count := o.pages.length
    new_page_count := n.pages.length }

/-- Modelled from the spec: the comparison with the recommended threshold. -/
def compareDocuments (o n : Document) : CompareResponse :=
  compareDocs SIMILARITY_THRESHOLD o n

/-- The wire string of each diff type, from the string union in
`types/api.ts` and the backend response shown in the repository README. -/
def diffTypeToString : DiffType → String
  | .added => "added"
  | .removed => "removed"
  | .modified => "modified"

/-- Embedded from `getDiffTypeLabel` in `DiffList.tsx`: a switch on the
type string with a default branch returning the input unchanged. -/
def getDiffTypeLabel (type : String) : String :=
  if type = "added" then "追加"
  else if type = "removed" then "削除"
  else if type = "modified" then "変更"
  else type

/-- Embedded from `getColorForDiffType` in the PdfViewer component: a
switch on the type string with a gray default branch. -/
def getColorForDiffType (diffType : String) : String :=
  if diffType = "added" then "#22c55e"
  else if diffType = "removed" then "#ef4444"
  else if diffType = "modified" then "#f59e0b"
  else "#6b7280"

/-- Embedded from `getFillColorForDiffType` in the PdfViewer component:
a switch on the type string with a gray default branch. -/
def getFillColorForDiffType (diffType : String) : String :=
  if diffType = "added" then "rgba(34, 197, 94, 0.2)"
  else if diffType = "removed" then "rgba(239, 68, 68, 0.2)"
  else if diffType = "modified" then "rgba(245, 158, 11, 0.2)"
  else "rgba(107, 114, 128, 0.2)"

/-- Embedded from `getCurrentPageDiffs` in `App.tsx`: with no result the
empty list; otherwise the diffs of the first page whose `page_number`
equals the current page, or the empty list when none matches. -/
def getCurrentPageDiffs (result : Option CompareResponse) (currentPage : Int) : List DiffItem :=
  match result with
  | none => []
  | some r =>
    match r.pages.find? (fun p => p.page_number == currentPage) with
    | none => []
    | some pd => pd.diffs

/-- Embedded from the PdfViewer overlay effect: the boxes drawn for a
page are all `old_bboxes` (old view) or all `new_bboxes` (new view) of its
diffs, in order. -/
def overlayBoxes (diffs : List DiffItem) (viewOld : Bool) : List BoundingBox :=
  (diffs.map (fun d => if viewOld then d.old_bboxes else d.new_bboxes)).flatten

/-- A JSON value, used to state the wire shape of the comparison
response. -/
inductive Json where
  | null
  | str (s : String)
  | num (n : Int)
  | arr (xs : List Json)
  | obj (fields : List (String × Json))

/-- Modelled from the spec: JSON serialization of a bounding box, with the
field names of `BoundingBox` in `types/api.ts` and the README response. -/
def encodeBBox (b : BoundingBox) : Json :=
  .obj [("x1", .num b.x1), ("y1", .num b.y1), ("x2", .num b.x2), ("y2", .num b.y2)]

/-- A nullable string field: `null` or a JSON string. -/
def encodeOptStr : Option String → Json
  | none => .null
  | some s => .str s

/-- Modelled from the spec: JSON serialization of one diff record, with the
field names of `DiffItem` in `types/api.ts` and the README response. -/
def encodeDiff (d : DiffItem) : Json :=
  .obj [("type", .str (diffTypeToString d.type)),
        ("old_text", encodeOptStr d.old_text),
        ("new_text", encodeOptStr d.new_text),
        ("old_bboxes", .arr (d.old_bboxes.map encodeBBox)),
        ("new_bboxes", .arr (d.new_bboxes.map encodeBBox))]

/-- Modelled from the spec: JSON serialization of one page entry, with the
field names of `PageDiff` in `types/api.ts` and the README response. -/
def encodePage (p : PageDiff) : Json :=
  .obj [("page_number", .num p.page_number),
        ("diffs", .arr (p.diffs.map encodeDiff))]

/-- Modelled from the spec: JSON serialization of the whole comparison
response, with the field names of `CompareResponse` in `types/api.ts`. -/
def encodeResponse (r : CompareResponse) : Json :=
  .obj [("pages", .arr (r.pages.map encodePage)),
        ("old_page_count", .num r.old_page_count),
        ("new_page_count", .num r.new_page_count)]

/-- Schema check: exactly the four numeric corner fields of a bounding
box, in the declared order. -/
def isBBoxJson : Json → Bool
  | .obj [("x1", .num _), ("y1", .num _), ("x2", .num _), ("y2", .num _)] => true
  | _ => false

/-- Schema check: a `type` value drawn from the closed set of the three
diff type strings. -/
def isDiffTypeJson : Json → Bool
  | .str s => s = "added" || s = "removed" || s = "modified"
  | _ => false

/-- Schema check: a nullable string field. -/
def isNullableStr : Json → Bool
  | .null => true
  | .str _ => true
  | _ => false

/-- Schema check: exactly the five declared fields of a diff record, with
a closed-set type, nullable texts and bounding-box arrays. -/
def isDiffJson : Json → Bool
  | .obj [("type", t), ("old_text", ot), ("new_text", nt),
          ("old_bboxes", .arr obs), ("new_bboxes", .arr nbs)] =>
    isDiffTypeJson t && isNullableStr ot && isNullableStr nt &&
      obs.all isBBoxJson && nbs.all isBBoxJson
  | _ => false

/-- Schema check: exactly a `page_number` integer and a `diffs` array of
well-shaped diff records. -/
def isPageJson : Json → Bool
  | .obj [("page_number", .num _), ("diffs", .arr ds)] => ds.all isDiffJson
  | _ => false

/-- Schema check: exactly a `pages` array of well-shaped page entries and
the two integer page counts. -/
def isCompareJson : Json → Bool
  | .obj [("pages", .arr ps), ("old_page_count", .num _), ("new_page_count", .num _)] =>
    ps.all isPageJson
  | _ => false

/-- The spec's record invariant (spec section 3): `added` carries no old
side, `removed` carries no new side, `modified` carries both texts. -/
def recordInvariant (d : DiffItem) : Prop :=
  (d.type = .added → d.old_text = none ∧ d.old_bboxes = []) ∧
  (d.type = .removed → d.new_text = none ∧ d.new_bboxes = []) ∧
  (d.type = .modified → d.old_text.isSome ∧ d.new_text.isSome)

instance (d : DiffItem) : Decidable (recordInvariant d) := by
  unfold recordInvariant; infer_instance

/-- The swapped diff type: `added` and `removed` exchange, `modified`
stays (spec section 8, symmetry of type). -/
def swapType : DiffType → DiffType
  | .added => .removed
  | .removed => .added
  | .modified => .modified

/-- A diff record with old and new sides exchanged (spec section 8). -/
def swapItem (d : DiffItem) : DiffItem :=
  { type := swapType d.type
    old_text := d.new_text
    new_text := d.old_text
    old_bboxes := d.new_bboxes
    new_bboxes := d.old_bboxes }

/-- A comparison result with old and new sides exchanged on every record
and on the page counts (spec section 8). -/
def swapResult (r : CompareResponse) : CompareResponse :=
  { pages := r.pages.map (fun p => { page_number := p.page_number
                                     diffs := p.diffs.map swapItem })
    old_page_count := r.new_page_count
    new_page_count := r.old_page_count }

/-- A document with no pages. -/
def emptyDoc : Document := ⟨[]⟩

/-- Sample element "A" at the top of the old page. -/
def elOldA : TextElement := ⟨"A", ⟨0, 0, 1, 1⟩⟩

/-- Sample element "B" at the bottom of the old page. -/
def elOldB : TextElement := ⟨"B", ⟨0, 10, 1, 11⟩⟩

/-- Sample element "B" at the top of the new page. -/
def elNewB : TextElement := ⟨"B", ⟨0, 0, 1, 1⟩⟩

/-- Sample element "A" at the bottom of the new page. -/
def elNewA : TextElement := ⟨"A", ⟨0, 10, 1, 11⟩⟩

/-- Old sample page with contents A above B. -/
def pageReorderOld : Page := ⟨[elOldA, elOldB], 8, 11⟩

/-- New sample page with the same contents spatially swapped: B above A. -/
def pageReorderNew : Page := ⟨[elNewB, elNewA], 8, 11⟩

/-- One-page document whose page reads A then B. -/
def docReorderOld : Document := ⟨[pageReorderOld]⟩

/-- One-page document whose page reads B then A. -/
def docReorderNew : Document := ⟨[pageReorderNew]⟩

/-- Sample old invoice element. -/
def elInvOld : TextElement := ⟨"Invoice #123", ⟨0, 0, 2, 1⟩⟩

/-- Sample new invoice element (one token changed). -/
def elInvNew : TextElement := ⟨"Invoice #124", ⟨0, 0, 2, 1⟩⟩

/-- One-page document containing only the old invoice line. -/
def docInvoiceOld : Document := ⟨[⟨[elInvOld], 8, 11⟩]⟩

/-- One-page document containing only the new invoice line. -/
def docInvoiceNew : Document := ⟨[⟨[elInvNew], 8, 11⟩]⟩

/-- Sample deleted element with text unrelated to `elSignature`. -/
def elTotal : TextElement := ⟨"Total: $500", ⟨0, 9, 2, 10⟩⟩

/-- Sample inserted element with text unrelated to `elTotal`. -/
def elSignature : TextElement := ⟨"Signature: John", ⟨0, 9, 2, 10⟩⟩

/-- Sample one-element page content for page number i of the sample docs. -/
def elPage (i : Nat) : TextElement := ⟨"p" ++ toString i, ⟨0, 0, 1, 1⟩⟩

/-- A one-element sample page. -/
def mkSamplePage (i : Nat) : Page := ⟨[elPage i], 8, 11⟩

/-- Sample document with 3 pages. -/
def doc3 : Document := ⟨[mkSamplePage 1, mkSamplePage 2, mkSamplePage 3]⟩

/-- Sample document with 5 pages, the first 3 identical to `doc3`. -/
def doc5 : Document :=
  ⟨[mkSamplePage 1, mkSamplePage 2, mkSamplePage 3, mkSamplePage 4, mkSamplePage 5]⟩

/-- Sample response whose only page entry is page 2 (so page 1 has no entry). -/
def respNoPage1 : CompareResponse :=
  ⟨[⟨2, [mkAdded [elNewA]]⟩], 1, 1⟩

/-- Sample response that includes page 1 with an empty diff list. -/
def respEmptyPage1 : CompareResponse := ⟨[⟨1, []⟩], 1, 1⟩

/-- A page pair on which record-level swap symmetry holds: identical
canonical content sequences, an empty side, or wholly disjoint contents
whose concatenated texts reach the similarity threshold (so the pair
merges into one `modified` record in both directions). -/
def symmetricPagePair (θ : ℚ) (op np : Option Page) : Prop :=
  contentSeq op = contentSeq np ∨ pageSeq op = [] ∨ pageSeq np = [] ∨
  ((∀ c ∈ contentSeq op, c ∉ contentSeq np) ∧
    thresholdReached θ (concatTexts (pageSeq op)) (concatTexts (pageSeq np)) = true)

instance (θ : ℚ) (op np : Option Page) : Decidable (symmetricPagePair θ op np) := by
  unfold symmetricPagePair; infer_instance

theorem isBBoxJson_encodeBBox (b : BoundingBox) : isBBoxJson (encodeBBox b) = true := rfl

theorem isDiffTypeJson_str (t : DiffType) : isDiffTypeJson (.str (diffTypeToString t)) = true := by
  cases t <;> rfl

theorem isNullableStr_encodeOptStr (o : Option String) : isNullableStr (encodeOptStr o) = true := by
  cases o <;> rfl

theorem all_isBBoxJson (bs : List BoundingBox) : (bs.map encodeBBox).all isBBoxJson = true := by
  induction bs with
  | nil => rfl
  | cons b bs ih => simp only [List.map_cons, List.all_cons, isBBoxJson_encodeBBox, ih]; rfl

theorem isDiffJson_encodeDiff (d : DiffItem) : isDiffJson (encodeDiff d) = true := by
  show (isDiffTypeJson (.str (diffTypeToString d.type)) &&
      isNullableStr (encodeOptStr d.old_text) && isNullableStr (encodeOptStr d.new_text) &&
      (d.old_bboxes.map encodeBBox).all isBBoxJson &&
      (d.new_bboxes.map encodeBBox).all isBBoxJson) = true
  rw [isDiffTypeJson_str, isNullableStr_encodeOptStr, isNullableStr_encodeOptStr,
    all_isBBoxJson, all_isBBoxJson]
  rfl

theorem isPageJson_encodePage (p : PageDiff) : isPageJson (encodePage p) = true := by
  show (p.diffs.map encodeDiff).all isDiffJson = true
  induction p.diffs with
  | nil => rfl
  | cons d ds ih => simp only [List.map_cons, List.all_cons, isDiffJson_encodeDiff, ih]; rfl

/-- C1: every comparison result serializes to exactly the declared wire
shape: a `pages` array whose entries carry a numeric `page_number` and a
`diffs` array, each diff carrying a `type` from the closed set
{added, removed, modified}, nullable string `old_text`/`new_text`,
`old_bboxes`/`new_bboxes` arrays of {x1,y1,x2,y2} records, plus the two
integer page counts — and no other shape is produced. -/
theorem compareResponse_schema_ok (r : CompareResponse) :
    isCompareJson (encodeResponse r) = true := by
  show (r.pages.map encodePage).all isPageJson = true
  induction r.pages with
  | nil => rfl
  | cons p ps ih => simp only [List.map_cons, List.all_cons, isPageJson_encodePage, ih]; rfl

/-- C9: the diff type is a closed tagged variant over exactly
{added, removed, modified}, and each branching consumption site
(`getDiffTypeLabel`, `getColorForDiffType`, `getFillColorForDiffType`)
covers all three cases: on every value of the closed variant the result is
one of the three declared case results and never the fallback value, so no
site needs its fallback case for an unknown type string. -/
theorem diffType_closed_exhaustive (d : DiffType) :
    (d = .added ∨ d = .removed ∨ d = .modified) ∧
    getDiffTypeLabel (diffTypeToString d) ∈ (["追加", "削除", "変更"] : List String) ∧
    getColorForDiffType (diffTypeToString d) ∈
      (["#22c55e", "#ef4444", "#f59e0b"] : List String) ∧
    getFillColorForDiffType (diffTypeToString d) ∈
      (["rgba(34, 197, 94, 0.2)", "rgba(239, 68, 68, 0.2)",
        "rgba(245, 158, 11, 0.2)"] : List String) ∧
    getColorForDiffType (diffTypeToString d) ≠ "#6b7280" ∧
    getFillColorForDiffType (diffTypeToString d) ≠ "rgba(107, 114, 128, 0.2)" ∧
    getDiffTypeLabel (diffTypeToString d) ≠ diffTypeToString d := by
  cases d <;> decide

/-- C10: when no page entry of the response matches the current page
number — or when no response exists yet, or when the matching entry has an
empty diff list — the frontend's per-page diff lookup returns the empty
list rather than failing, so a result omitting zero-diff pages and one
including them with empty lists render identically: no overlay boxes are
drawn on such pages. -/
theorem getCurrentPageDiffs_safe (res : CompareResponse) (p : Int)
    (h : ∀ pd ∈ res.pages, pd.page_number ≠ p)
    (r2 : CompareResponse) (pd2 : PageDiff)
    (h2 : r2.pages.find? (fun q => q.page_number == p) = some pd2)
    (h3 : pd2.diffs = []) :
    getCurrentPageDiffs none p = [] ∧
    getCurrentPageDiffs (some res) p = [] ∧
    getCurrentPageDiffs (some r2) p = [] ∧
    getCurrentPageDiffs (some res) p = getCurrentPageDiffs (some r2) p ∧
    overlayBoxes (getCurrentPageDiffs (some res) p) true = [] ∧
    overlayBoxes (getCurrentPageDiffs (some res) p) false = [] := by
  have hn : res.pages.find? (fun q => q.page_number == p) = none := by
    rw [List.find?_eq_none]
    intro q hq
    simpa using h q hq
  have e1 : getCurrentPageDiffs (some res) p = [] := by
    simp [getCurrentPageDiffs, hn]
  have e2 : getCurrentPageDiffs (some r2) p = [] := by
    simp [getCurrentPageDiffs, h2, h3]
  refine ⟨rfl, e1, e2, by rw [e1, e2], by rw [e1]; rfl, by rw [e1]; rfl⟩

theorem recordInvariant_mkAdded (run : List TextElement) : recordInvariant (mkAdded run) := by
  unfold recordInvariant mkAdded
  refine ⟨fun _ => ⟨rfl, rfl⟩, fun h => ?_, fun h => ?_⟩ <;> simp at h

theorem recordInvariant_mkRemoved (run : List TextElement) : recordInvariant (mkRemoved run) := by
  unfold recordInvariant mkRemoved
  refine ⟨fun h => ?_, fun _ => ⟨rfl, rfl⟩, fun h => ?_⟩ <;> simp at h

theorem recordInvariant_mkModified (ds is : List TextElement) :
    recordInvariant (mkModified ds is) := by
  unfold recordInvariant mkModified
  refine ⟨fun h => ?_, fun h => ?_, fun _ => ⟨rfl, rfl⟩⟩ <;> simp at h

theorem recordInvariant_flushPending (θ : ℚ) (dels inss : List TextElement) :
    ∀ d ∈ flushPending θ dels inss, recordInvariant d := by
  intro d hd
  match dels, inss with
  | [], [] => simp [flushPending] at hd
  | x :: xs, [] =>
    simp only [flushPending, List.mem_singleton] at hd
    exact hd ▸ recordInvariant_mkRemoved (x :: xs)
  | [], y :: ys =>
    simp only [flushPending, List.mem_singleton] at hd
    exact hd ▸ recordInvariant_mkAdded (y :: ys)
  | x :: xs, y :: ys =>
    simp only [flushPending] at hd
    split at hd
    · simp only [List.mem_singleton] at hd
      exact hd ▸ recordInvariant_mkModified (x :: xs) (y :: ys)
    · simp only [List.mem_cons, List.mem_singleton, List.not_mem_nil, or_false] at hd
      rcases hd with hd | hd
      · exact hd ▸ recordInvariant_mkRemoved (x :: xs)
      · exact hd ▸ recordInvariant_mkAdded (y :: ys)

theorem recordInvariant_classifyAux (θ : ℚ) :
    ∀ (ops : List EditOp) (dels inss : List TextElement),
      ∀ d ∈ classifyAux θ ops dels inss, recordInvariant d := by
  intro ops
  induction ops with
  | nil => exact fun dels inss d hd => recordInvariant_flushPending θ dels inss d hd
  | cons op rest ih =>
    intro dels inss d hd
    cases op with
    | eq a b =>
      simp only [classifyAux, List.mem_append] at hd
      rcases hd with hd | hd
      · exact recordInvariant_flushPending θ dels inss d hd
      · exact ih [] [] d hd
    | del e =>
      cases inss with
      | nil =>
        simp only [classifyAux] at hd
        exact ih (dels ++ [e]) [] d hd
      | cons i is =>
        simp only [classifyAux, List.mem_append] at hd
        rcases hd with hd | hd
        · exact recordInvariant_flushPending θ dels (i :: is) d hd
        · exact ih [e] [] d hd
    | ins e =>
      simp only [classifyAux] at hd
      exact ih dels (inss ++ [e]) d hd

/-- C2: every diff record produced by a comparison satisfies the record
invariant: `added` records carry no old text and no old boxes, `removed`
records carry no new text and no new boxes, and `modified` records carry
both texts. -/
theorem compare_record_invariant (θ : ℚ) (o n : Document) (pd : PageDiff) (d : DiffItem)
    (hp : pd ∈ (compareDocs θ o n).pages) (hd : d ∈ pd.diffs) : recordInvariant d := by
  rcases List.mem_map.mp hp with ⟨i, _, rfl⟩
  exact recordInvariant_classifyAux θ _ [] [] d hd

theorem diffSeqFuel_all_eq :
    ∀ (f : Nat) {xs ys : List TextElement}, xs.map (·.content) = ys.map (·.content) →
      ∀ op ∈ diffSeqFuel f xs ys, ∃ a b, op = EditOp.eq a b := by
  intro f
  induction f with
  | zero =>
    intro xs ys h op hop
    cases xs with
    | nil =>
      cases ys with
      | nil => simp [diffSeqFuel] at hop
      | cons y ys => simp at h
    | cons x xs =>
      cases ys with
      | nil => simp at h
      | cons y ys => simp [diffSeqFuel] at hop
  | succ f ih =>
    intro xs ys h op hop
    cases xs with
    | nil =>
      cases ys with
      | nil => simp [diffSeqFuel] at hop
      | cons y ys => simp at h
    | cons x xs =>
      cases ys with
      | nil => simp at h
      | cons y ys =>
        simp only [List.map_cons, List.cons.injEq] at h
        rw [show diffSeqFuel (f + 1) (x :: xs) (y :: ys)
            = EditOp.eq x y :: diffSeqFuel f xs ys from by
          rw [diffSeqFuel, if_pos h.1]] at hop
        rcases List.mem_cons.mp hop with rfl | hop
        · exact ⟨x, y, rfl⟩
        · exact ih h.2 op hop

theorem diffSeq_all_eq {xs ys : List TextElement}
    (h : xs.map (·.content) = ys.map (·.content)) :
    ∀ op ∈ diffSeq xs ys, ∃ a b, op = EditOp.eq a b :=
  diffSeqFuel_all_eq _ h

theorem classifyAux_all_eq (θ : ℚ) :
    ∀ ops : List EditOp, (∀ op ∈ ops, ∃ a b, op = EditOp.eq a b) →
      classifyAux θ ops [] [] = [] := by
  intro ops
  induction ops with
  | nil => intro _; rfl
  | cons op rest ih =>
    intro h
    obtain ⟨a, b, rfl⟩ := h op (List.mem_cons_self _ _)
    show flushPending θ [] [] ++ classifyAux θ rest [] [] = []
    rw [show flushPending θ [] [] = [] from rfl, List.nil_append]
    exact ih fun o ho => h o (List.mem_cons_of_mem _ ho)

theorem diffPage_nil_of_contentSeq_eq (θ : ℚ) {p q : Option Page}
    (h : contentSeq p = contentSeq q) : diffPage θ p q = [] :=
  classifyAux_all_eq θ _ (diffSeq_all_eq h)

theorem diffSeqFuel_nil_left (f : Nat) (ys : List TextElement) :
    diffSeqFuel f [] ys = ys.map .ins := by
  cases f <;> cases ys <;> rfl

theorem diffSeqFuel_nil_right (f : Nat) (xs : List TextElement) :
    diffSeqFuel f xs [] = xs.map .del := by
  cases f <;> cases xs <;> rfl

theorem diffSeq_nil_left (ys : List TextElement) : diffSeq [] ys = ys.map .ins :=
  diffSeqFuel_nil_left _ ys

theorem diffSeq_nil_right (xs : List TextElement) : diffSeq xs [] = xs.map .del :=
  diffSeqFuel_nil_right _ xs

theorem classifyAux_ins_run (θ : ℚ) :
    ∀ (ys : List TextElement) (dels inss : List TextElement),
      classifyAux θ (ys.map .ins) dels inss = flushPending θ dels (inss ++ ys) := by
  intro ys
  induction ys with
  | nil => intro dels inss; rw [List.map_nil, List.append_nil]; rfl
  | cons y ys ih =>
    intro dels inss
    rw [List.map_cons]
    show classifyAux θ (ys.map .ins) dels (inss ++ [y]) = _
    rw [ih dels (inss ++ [y]), List.append_assoc, List.singleton_append]

theorem classifyAux_del_run (θ : ℚ) :
    ∀ (xs : List TextElement) (ops : List EditOp) (dels : List TextElement),
      classifyAux θ (xs.map .del ++ ops) dels [] = classifyAux θ ops (dels ++ xs) [] := by
  intro xs
  induction xs with
  | nil => intro ops dels; rw [List.map_nil, List.nil_append, List.append_nil]
  | cons x xs ih =>
    intro ops dels
    rw [List.map_cons, List.cons_append]
    show classifyAux θ (xs.map .del ++ ops) (dels ++ [x]) [] = _
    rw [ih ops (dels ++ [x]), List.append_assoc, List.singleton_append]

theorem classifyOps_ins (θ : ℚ) (ys : List TextElement) :
    classifyOps θ (ys.map .ins) = if ys = [] then [] else [mkAdded ys] := by
  show classifyAux θ (ys.map .ins) [] [] = _
  rw [classifyAux_ins_run θ ys [] [], List.nil_append]
  cases ys with
  | nil => rfl
  | cons y ys => rfl

theorem classifyOps_del (θ : ℚ) (xs : List TextElement) :
    classifyOps θ (xs.map .del) = if xs = [] then [] else [mkRemoved xs] := by
  show classifyAux θ (xs.map .del) [] [] = _
  rw [show xs.map EditOp.del = xs.map .del ++ [] from (List.append_nil _).symm,
    classifyAux_del_run θ xs [] [], List.nil_append]
  cases xs with
  | nil => rfl
  | cons x xs => rfl

theorem classifyOps_replace (θ : ℚ) (dels inss : List TextElement)
    (hd : dels ≠ []) (hi : inss ≠ []) :
    classifyOps θ (dels.map .del ++ inss.map .ins) =
      if thresholdReached θ (concatTexts dels) (concatTexts inss) then
        [mkModified dels inss]
      else [mkRemoved dels, mkAdded inss] := by
  show classifyAux θ (dels.map .del ++ inss.map .ins) [] [] = _
  rw [classifyAux_del_run θ dels (inss.map .ins) [], List.nil_append,
    classifyAux_ins_run θ inss dels [], List.nil_append]
  match dels, inss with
  | [], _ => exact absurd rfl hd
  | _ :: _, [] => exact absurd rfl hi
  | d :: ds, i :: is => rfl

theorem diffPage_none_left (θ : ℚ) (np : Option Page) :
    diffPage θ none np = if pageSeq np = [] then [] else [mkAdded (pageSeq np)] := by
  show classifyOps θ (diffSeq (pageSeq none) (pageSeq np)) = _
  rw [show pageSeq none = [] from rfl, diffSeq_nil_left, classifyOps_ins]

theorem diffPage_none_right (θ : ℚ) (op : Option Page) :
    diffPage θ op none = if pageSeq op = [] then [] else [mkRemoved (pageSeq op)] := by
  show classifyOps θ (diffSeq (pageSeq op) (pageSeq none)) = _
  rw [show pageSeq none = [] from rfl, diffSeq_nil_right, classifyOps_del]

/-- C2 witness at a concrete comparison: the single `modified` record
produced by comparing the one-line invoice documents satisfies the record
invariant. -/
theorem compare_record_invariant_witness :
    recordInvariant
      { type := .modified
        old_text := some "Invoice #123"
        new_text := some "Invoice #124"
        old_bboxes := [⟨0, 0, 2, 1⟩]
        new_bboxes := [⟨0, 0, 2, 1⟩] } :=
  compare_record_invariant SIMILARITY_THRESHOLD docInvoiceOld docInvoiceNew
    ⟨1, [{ type := .modified
           old_text := some "Invoice #123"
           new_text := some "Invoice #124"
           old_bboxes := [⟨0, 0, 2, 1⟩]
           new_bboxes := [⟨0, 0, 2, 1⟩] }]⟩
    _ (by decide) (by decide)

/-- C3: comparing any document against itself yields a result in which
every page's list of diff records is empty. -/
theorem compare_self_no_diffs (θ : ℚ) (docD : Document) (pd : PageDiff)
    (hp : pd ∈ (compareDocs θ docD docD).pages) : pd.diffs = [] := by
  rcases List.mem_map.mp hp with ⟨i, _, rfl⟩
  exact classifyAux_all_eq θ _ (diffSeq_all_eq rfl)

/-- C3 witness: the self-comparison of a concrete two-element document
contains page 1, and the theorem yields its diff list empty. -/
theorem compare_self_no_diffs_witness :
    (⟨1, []⟩ : PageDiff) ∈ (compareDocs SIMILARITY_THRESHOLD docReorderOld docReorderOld).pages ∧
    (⟨1, []⟩ : PageDiff).diffs = [] :=
  ⟨by decide, compare_self_no_diffs SIMILARITY_THRESHOLD docReorderOld ⟨1, []⟩ (by decide)⟩

/-- C5 counterexample: two pages holding the same contents in a different
reading order (old reads A then B, new reads B then A).  Their canonical
content sequences are ["A","B"] and ["B","A"], yet the comparison of the
two one-page documents produces two diff records for that page (a
`removed` "A" and an `added` "A"), not zero. -/
theorem content_reorder_cex :
    contentSeq (some pageReorderOld) = ["A", "B"] ∧
    contentSeq (some pageReorderNew) = ["B", "A"] ∧
    (compareDocuments docReorderOld docReorderNew).pages =
      [⟨1, [mkRemoved [elOldA], mkAdded [elNewA]]⟩] := by
  decide

/-- C5 (amended): diff-time equality of two text elements is exact
equality of their content strings only, geometry ignored: whenever the
canonical (reading-order-sorted) content sequences of the two pages are
equal — in particular when elements merely moved or were extracted in a
different order without changing the canonical content order — the
comparison yields zero diff records for that page.  (A reordering that
changes the canonical content order produces records, per the
counterexample.) -/
theorem diff_content_only (θ : ℚ) (p q : Option Page)
    (h : contentSeq p = contentSeq q) : diffPage θ p q = [] :=
  diffPage_nil_of_contentSeq_eq θ h

/-- C5 witness: a page whose only element "A" moved to a different
position still compares with zero diff records. -/
theorem diff_content_only_witness :
    diffPage SIMILARITY_THRESHOLD
      (some ⟨[⟨"A", ⟨0, 0, 1, 1⟩⟩], 8, 11⟩)
      (some ⟨[⟨"A", ⟨5, 5, 6, 6⟩⟩], 8, 11⟩) = [] :=
  diff_content_only SIMILARITY_THRESHOLD _ _ (by decide)

/-- C8: empty documents are not an error: comparing two zero-page
documents yields the result with no page entries and both counts zero;
when only the old side is empty every produced record is `added`, and when
only the new side is empty every produced record is `removed`. -/
theorem compare_empty_docs (θ : ℚ) (o n : Document) (pd qd : PageDiff) (d e : DiffItem)
    (hp : pd ∈ (compareDocs θ emptyDoc n).pages) (hd : d ∈ pd.diffs)
    (hq : qd ∈ (compareDocs θ o emptyDoc).pages) (he : e ∈ qd.diffs) :
    compareDocs θ emptyDoc emptyDoc = ⟨[], 0, 0⟩ ∧
    d.type = .added ∧ e.type = .removed := by
  refine ⟨rfl, ?_, ?_⟩
  · rcases List.mem_map.mp hp with ⟨i, _, rfl⟩
    have h0 : emptyDoc.pages[i]? = none := by
      show ([] : List Page)[i]? = none
      cases i <;> rfl
    rw [show (PageDiff.mk (Int.ofNat i + 1)
        (diffPage θ emptyDoc.pages[i]? n.pages[i]?)).diffs
        = diffPage θ emptyDoc.pages[i]? n.pages[i]? from rfl,
      h0, diffPage_none_left] at hd
    split at hd
    · simp at hd
    · rw [List.mem_singleton] at hd
      rw [hd]
      rfl
  · rcases List.mem_map.mp hq with ⟨i, _, rfl⟩
    have h0 : emptyDoc.pages[i]? = none := by
      show ([] : List Page)[i]? = none
      cases i <;> rfl
    rw [show (PageDiff.mk (Int.ofNat i + 1)
        (diffPage θ o.pages[i]? emptyDoc.pages[i]?)).diffs
        = diffPage θ o.pages[i]? emptyDoc.pages[i]? from rfl,
      h0, diffPage_none_right] at he
    split at he
    · simp at he
    · rw [List.mem_singleton] at he
      rw [he]
      rfl

/-- C8 witness: comparing the empty document against a concrete one-page
document (and the reverse) produces only `added` (resp. `removed`)
records, and two empty documents compare to the empty result. -/
theorem compare_empty_docs_witness :
    ⟨1, [mkAdded [elOldA, elOldB]]⟩ ∈
      (compareDocs SIMILARITY_THRESHOLD emptyDoc docReorderOld).pages ∧
    compareDocs SIMILARITY_THRESHOLD emptyDoc emptyDoc = ⟨[], 0, 0⟩ ∧
    (mkAdded [elOldA, elOldB]).type = .added ∧
    (mkRemoved [elOldA, elOldB]).type = .removed :=
  ⟨by decide,
    compare_empty_docs SIMILARITY_THRESHOLD docReorderOld docReorderOld
      ⟨1, [mkAdded [elOldA, elOldB]]⟩ ⟨1, [mkRemoved [elOldA, elOldB]]⟩
      (mkAdded [elOldA, elOldB]) (mkRemoved [elOldA, elOldB])
      (by decide) (by decide) (by decide) (by decide)⟩

theorem lcsLenFuel_eq_zero (f : Nat) :
    ∀ (xs ys : List TextElement), (∀ x ∈ xs, ∀ y ∈ ys, x.content ≠ y.content) →
      lcsLenFuel f xs ys = 0 := by
  induction f with
  | zero => intro xs ys _; cases xs <;> cases ys <;> rfl
  | succ f ih =>
    intro xs ys h
    cases xs with
    | nil => rfl
    | cons a as =>
      cases ys with
      | nil => rfl
      | cons b bs =>
        rw [lcsLenFuel, if_neg (h a (List.mem_cons_self _ _) b (List.mem_cons_self _ _)),
          ih as (b :: bs) (fun x hx y hy => h x (List.mem_cons_of_mem _ hx) y hy),
          ih (a :: as) bs (fun x hx y hy => h x hx y (List.mem_cons_of_mem _ hy))]
        rfl

theorem lcsLen_eq_zero (xs ys : List TextElement)
    (h : ∀ x ∈ xs, ∀ y ∈ ys, x.content ≠ y.content) : lcsLen xs ys = 0 :=
  lcsLenFuel_eq_zero _ xs ys h

theorem diffSeqFuel_disjoint (f : Nat) :
    ∀ (xs ys : List TextElement), xs.length + ys.length ≤ f →
      (∀ x ∈ xs, ∀ y ∈ ys, x.content ≠ y.content) →
      diffSeqFuel f xs ys = xs.map .del ++ ys.map .ins := by
  induction f with
  | zero =>
    intro xs ys hlen h
    cases xs with
    | nil => rw [diffSeqFuel_nil_left]; rfl
    | cons x xs =>
      cases ys with
      | nil => rw [diffSeqFuel_nil_right]; simp
      | cons y ys => simp at hlen
  | succ f ih =>
    intro xs ys hlen h
    cases xs with
    | nil => rw [diffSeqFuel_nil_left]; rfl
    | cons x xs =>
      cases ys with
      | nil => rw [diffSeqFuel_nil_right]; simp
      | cons y ys =>
        have hne : ¬ x.content = y.content :=
          h x (List.mem_cons_self _ _) y (List.mem_cons_self _ _)
        have hcond : lcsLen (x :: xs) ys ≤ lcsLen xs (y :: ys) := by
          rw [lcsLen_eq_zero (x :: xs) ys
            (fun a ha b hb => h a ha b (List.mem_cons_of_mem _ hb))]
          exact Nat.zero_le _
        rw [diffSeqFuel, if_neg hne, if_pos hcond,
          ih xs (y :: ys) (by simp at hlen ⊢; omega)
            (fun a ha b hb => h a (List.mem_cons_of_mem _ ha) b hb)]
        rfl

theorem diffSeq_disjoint (xs ys : List TextElement)
    (h : ∀ x ∈ xs, ∀ y ∈ ys, x.content ≠ y.content) :
    diffSeq xs ys = xs.map .del ++ ys.map .ins :=
  diffSeqFuel_disjoint _ xs ys (Nat.le_refl _) h

theorem thresholdReached_comm (θ : ℚ) (a b : String) :
    thresholdReached θ a b = thresholdReached θ b a := by
  unfold thresholdReached
  rw [Finset.inter_comm,
    Nat.max_comm (tokenize a).toFinset.card (tokenize b).toFinset.card]

theorem diffPage_swap_left_empty (θ : ℚ) (op np : Option Page) (h : pageSeq op = []) :
    diffPage θ np op = (diffPage θ op np).map swapItem := by
  show classifyOps θ (diffSeq (pageSeq np) (pageSeq op)) =
    (classifyOps θ (diffSeq (pageSeq op) (pageSeq np))).map swapItem
  rw [h, diffSeq_nil_right, diffSeq_nil_left, classifyOps_del, classifyOps_ins]
  by_cases hnp : pageSeq np = []
  · rw [if_pos hnp, if_pos hnp]; rfl
  · rw [if_neg hnp, if_neg hnp]; rfl

theorem diffPage_swap_right_empty (θ : ℚ) (op np : Option Page) (h : pageSeq np = []) :
    diffPage θ np op = (diffPage θ op np).map swapItem := by
  show classifyOps θ (diffSeq (pageSeq np) (pageSeq op)) =
    (classifyOps θ (diffSeq (pageSeq op) (pageSeq np))).map swapItem
  rw [h, diffSeq_nil_left, diffSeq_nil_right, classifyOps_ins, classifyOps_del]
  by_cases hop : pageSeq op = []
  · rw [if_pos hop, if_pos hop]; rfl
  · rw [if_neg hop, if_neg hop]; rfl

theorem diffPage_swap (θ : ℚ) (op np : Option Page) (h : symmetricPagePair θ op np) :
    diffPage θ np op = (diffPage θ op np).map swapItem := by
  rcases h with h | h | h | ⟨hdisj, hsim⟩
  · rw [diffPage_nil_of_contentSeq_eq θ h, diffPage_nil_of_contentSeq_eq θ h.symm]
    rfl
  · exact diffPage_swap_left_empty θ op np h
  · exact diffPage_swap_right_empty θ op np h
  · by_cases hop : pageSeq op = []
    · exact diffPage_swap_left_empty θ op np hop
    by_cases hnp : pageSeq np = []
    · exact diffPage_swap_right_empty θ op np hnp
    have hdisj2 : ∀ x ∈ pageSeq op, ∀ y ∈ pageSeq np, x.content ≠ y.content := by
      intro x hx y hy hc
      exact hdisj x.content (List.mem_map_of_mem _ hx)
        (hc ▸ List.mem_map_of_mem (·.content) hy)
    have hdisj3 : ∀ y ∈ pageSeq np, ∀ x ∈ pageSeq op, y.content ≠ x.content :=
      fun y hy x hx hc => hdisj2 x hx y hy hc.symm
    show classifyOps θ (diffSeq (pageSeq np) (pageSeq op)) =
      (classifyOps θ (diffSeq (pageSeq op) (pageSeq np))).map swapItem
    rw [diffSeq_disjoint _ _ hdisj2, diffSeq_disjoint _ _ hdisj3,
      classifyOps_replace θ _ _ hnp hop, classifyOps_replace θ _ _ hop hnp,
      if_pos hsim, if_pos (by rw [thresholdReached_comm]; exact hsim)]
    rfl

/-- C4 counterexample: for the one-page documents whose page contents are
reordered (A,B versus B,A), comparing new-against-old is not the swapped
result of comparing old-against-new: the minimal-edit-script tie-break
deletes "A" in one direction but "B" in the other, so the records do not
map onto each other. -/
theorem compare_swap_symmetry_cex :
    compareDocs SIMILARITY_THRESHOLD docReorderNew docReorderOld ≠
      swapResult (compareDocs SIMILARITY_THRESHOLD docReorderOld docReorderNew) := by
  decide

/-- C4 (amended): for every pair of documents the page counts swap when
the documents are swapped; and whenever every aligned page pair is
content-identical, has an empty side, or is a wholly disjoint replacement
whose concatenated texts reach the similarity threshold, the swapped
comparison is exactly the swapped result: every `added` record becomes a
`removed` record with the same text and boxes and vice versa, and
`modified` records' old/new fields swap.  (In general the edit-script
tie-break can match different elements in the two directions, so full
record-level symmetry fails, per the counterexample.) -/
theorem compare_swap_symmetry (θ : ℚ) (o n : Document) :
    (compareDocs θ n o).old_page_count = (compareDocs θ o n).new_page_count ∧
    (compareDocs θ n o).new_page_count = (compareDocs θ o n).old_page_count ∧
    ((∀ i, i < max o.pages.length n.pages.length →
        symmetricPagePair θ o.pages[i]? n.pages[i]?) →
      compareDocs θ n o = swapResult (compareDocs θ o n)) := by
  refine ⟨rfl, rfl, ?_⟩
  intro h
  unfold compareDocs swapResult
  rw [Nat.max_comm n.pages.length o.pages.length]
  simp only [List.map_map]
  congr 1
  apply List.map_congr_left
  intro i hi
  rw [List.mem_range] at hi
  have hsw := diffPage_swap θ o.pages[i]? n.pages[i]? (h i hi)
  simp only [Function.comp]
  rw [hsw]

/-- C4 witness: for the one-line invoice documents (disjoint element
contents whose token overlap reaches the threshold), the swapped
comparison equals the swapped result and the page counts swap; and for the
reorder pair — which fails the record-symmetry hypothesis — the page
counts still swap. -/
theorem compare_swap_symmetry_witness :
    (compareDocs SIMILARITY_THRESHOLD docInvoiceNew docInvoiceOld).old_page_count =
      (compareDocs SIMILARITY_THRESHOLD docInvoiceOld docInvoiceNew).new_page_count ∧
    (compareDocs SIMILARITY_THRESHOLD docInvoiceNew docInvoiceOld).new_page_count =
      (compareDocs SIMILARITY_THRESHOLD docInvoiceOld docInvoiceNew).old_page_count ∧
    compareDocs SIMILARITY_THRESHOLD docInvoiceNew docInvoiceOld =
      swapResult (compareDocs SIMILARITY_THRESHOLD docInvoiceOld docInvoiceNew) ∧
    (compareDocs SIMILARITY_THRESHOLD docReorderNew docReorderOld).old_page_count =
      (compareDocs SIMILARITY_THRESHOLD docReorderOld docReorderNew).new_page_count ∧
    (compareDocs SIMILARITY_THRESHOLD docReorderNew docReorderOld).new_page_count =
      (compareDocs SIMILARITY_THRESHOLD docReorderOld docReorderNew).old_page_count :=
  ⟨(compare_swap_symmetry SIMILARITY_THRESHOLD docInvoiceOld docInvoiceNew).1,
    (compare_swap_symmetry SIMILARITY_THRESHOLD docInvoiceOld docInvoiceNew).2.1,
    (compare_swap_symmetry SIMILARITY_THRESHOLD docInvoiceOld docInvoiceNew).2.2 (by decide),
    (compare_swap_symmetry SIMILARITY_THRESHOLD docReorderOld docReorderNew).1,
    (compare_swap_symmetry SIMILARITY_THRESHOLD docReorderOld docReorderNew).2.1⟩

/-- C6: the page aligner pairs pages positionally: for any two documents it
produces one `(old page or absent, new page or absent)` pair per page
number from 1 to the larger page count, the pair at index i being the two
documents' pages at index i; and for the concrete 3-page versus 5-page
documents the result reports `old_page_count = 3`, `new_page_count = 5`,
and pages 4 and 5 carry exactly one `added` record holding that page's
whole content. -/
theorem alignPages_positional (o n : Document) (i : Nat)
    (h : i < max o.pages.length n.pages.length) :
    (alignPages o n).length = max o.pages.length n.pages.length ∧
    (alignPages o n)[i]? = some (o.pages[i]?, n.pages[i]?) ∧
    (compareDocuments doc3 doc5).old_page_count = 3 ∧
    (compareDocuments doc3 doc5).new_page_count = 5 ∧
    (compareDocuments doc3 doc5).pages[3]? = some ⟨4, [mkAdded [elPage 4]]⟩ ∧
    (compareDocuments doc3 doc5).pages[4]? = some ⟨5, [mkAdded [elPage 5]]⟩ := by
  refine ⟨?_, ?_, by decide, by decide, by decide, by decide⟩
  · unfold alignPages
    rw [List.length_map, List.length_range]
  · unfold alignPages
    rw [List.getElem?_map, List.getElem?_range h]
    rfl

/-- C6 witness at a concrete input: for the 3-page and 5-page sample
documents the aligner has 5 positional pairs, the first pairing the two
first pages, and the comparison reports the page counts and the all-added
pages 4 and 5. -/
theorem alignPages_positional_witness :
    (alignPages doc3 doc5).length = max doc3.pages.length doc5.pages.length ∧
    (alignPages doc3 doc5)[0]? = some (doc3.pages[0]?, doc5.pages[0]?) ∧
    (compareDocuments doc3 doc5).old_page_count = 3 ∧
    (compareDocuments doc3 doc5).new_page_count = 5 ∧
    (compareDocuments doc3 doc5).pages[3]? = some ⟨4, [mkAdded [elPage 4]]⟩ ∧
    (compareDocuments doc3 doc5).pages[4]? = some ⟨5, [mkAdded [elPage 5]]⟩ :=
  alignPages_positional doc3 doc5 0 (by decide)

theorem similarity_nonneg (a b : String) : 0 ≤ similarity a b := by
  unfold similarity
  split
  · exact zero_le_one
  · exact div_nonneg (Nat.cast_nonneg _) (Nat.cast_nonneg _)

theorem similarity_le_one (a b : String) : similarity a b ≤ 1 := by
  unfold similarity
  split
  · exact le_refl 1
  · apply div_le_one_of_le₀
    · have h1 : ((tokenize a).toFinset ∩ (tokenize b).toFinset).card ≤
          (tokenize a).toFinset.card :=
        Finset.card_le_card Finset.inter_subset_left
      exact_mod_cast le_trans h1 (Nat.le_max_left _ _)
    · exact Nat.cast_nonneg _

theorem thresholdReached_iff (θ : ℚ) (a b : String) :
    thresholdReached θ a b = true ↔ θ ≤ similarity a b := by
  unfold thresholdReached similarity
  split
  · rw [decide_eq_true_iff]
    have hden : (0 : ℚ) < (θ.den : ℚ) := by exact_mod_cast θ.den_pos
    conv_rhs => rw [← Rat.num_div_den θ]
    rw [div_le_one hden]
    constructor
    · intro h'; exact_mod_cast h'
    · intro h'; exact_mod_cast h'
  · rename_i hm
    have hmpos : (0 : ℚ) <
        ((max (tokenize a).toFinset.card (tokenize b).toFinset.card : Nat) : ℚ) := by
      exact_mod_cast Nat.pos_of_ne_zero hm
    have hden : (0 : ℚ) < (θ.den : ℚ) := by exact_mod_cast θ.den_pos
    rw [decide_eq_true_iff, le_div_iff₀ hmpos]
    conv_rhs => rw [← Rat.num_div_den θ]
    rw [div_mul_eq_mul_div, div_le_iff₀ hden]
    constructor
    · intro h'; exact_mod_cast h'
    · intro h'; exact_mod_cast h'

/-- C7: for an adjacent delete-run immediately followed by an insert-run,
the classifier's similarity score between the concatenated deleted and
inserted texts lies in [0,1]; when the score reaches the (tunable)
threshold the classifier emits exactly one `modified` record carrying both
old and new text and boxes, and when it is below the threshold it emits
exactly two records, a `removed` followed by an `added`, never one
`modified`. -/
theorem classifier_replace_threshold (θ : ℚ) (dels inss : List TextElement)
    (hd : dels ≠ []) (hi : inss ≠ []) :
    0 ≤ similarity (concatTexts dels) (concatTexts inss) ∧
    similarity (concatTexts dels) (concatTexts inss) ≤ 1 ∧
    (θ ≤ similarity (concatTexts dels) (concatTexts inss) →
      classifyOps θ (dels.map .del ++ inss.map .ins) = [mkModified dels inss]) ∧
    (similarity (concatTexts dels) (concatTexts inss) < θ →
      classifyOps θ (dels.map .del ++ inss.map .ins) = [mkRemoved dels, mkAdded inss]) := by
  refine ⟨similarity_nonneg _ _, similarity_le_one _ _, ?_, ?_⟩
  · intro hle
    rw [classifyOps_replace θ dels inss hd hi,
      if_pos ((thresholdReached_iff θ _ _).mpr hle)]
  · intro hlt
    rw [classifyOps_replace θ dels inss hd hi, if_neg]
    intro hc
    exact absurd ((thresholdReached_iff θ _ _).mp hc) (not_le.mpr hlt)

/-- C7 witness: for the dissimilar adjacent runs "Total: $500" (deleted)
and "Signature: John" (inserted) at the recommended 0.3 threshold, the
bounds hold and the classifier produces the `removed`-then-`added` pair,
as evaluated on the concrete script. -/
theorem classifier_replace_threshold_witness :
    (0 ≤ similarity (concatTexts [elTotal]) (concatTexts [elSignature]) ∧
      similarity (concatTexts [elTotal]) (concatTexts [elSignature]) ≤ 1 ∧
      (SIMILARITY_THRESHOLD ≤ similarity (concatTexts [elTotal]) (concatTexts [elSignature]) →
        classifyOps SIMILARITY_THRESHOLD ([elTotal].map .del ++ [elSignature].map .ins) =
          [mkModified [elTotal] [elSignature]]) ∧
      (similarity (concatTexts [elTotal]) (concatTexts [elSignature]) < SIMILARITY_THRESHOLD →
        classifyOps SIMILARITY_THRESHOLD ([elTotal].map .del ++ [elSignature].map .ins) =
          [mkRemoved [elTotal], mkAdded [elSignature]])) ∧
    classifyOps SIMILARITY_THRESHOLD ([elTotal].map .del ++ [elSignature].map .ins) =
      [mkRemoved [elTotal], mkAdded [elSignature]] :=
  ⟨classifier_replace_threshold SIMILARITY_THRESHOLD [elTotal] [elSignature]
      (by decide) (by decide),
    by decide⟩

/-- C10 witness: with a response whose only entry is page 2 and a response
that lists page 1 with an empty diff list, the lookup for page 1 returns
the empty list in both cases (and with no response), and no overlay boxes
are drawn. -/
theorem getCurrentPageDiffs_safe_witness :
    getCurrentPageDiffs none 1 = [] ∧
    getCurrentPageDiffs (some respNoPage1) 1 = [] ∧
    getCurrentPageDiffs (some respEmptyPage1) 1 = [] ∧
    getCurrentPageDiffs (some respNoPage1) 1 = getCurrentPageDiffs (some respEmptyPage1) 1 ∧
    overlayBoxes (getCurrentPageDiffs (some respNoPage1) 1) true = [] ∧
    overlayBoxes (getCurrentPageDiffs (some respNoPage1) 1) false = [] :=
  getCurrentPageDiffs_safe respNoPage1 1 (by decide) respEmptyPage1 ⟨1, []⟩ (by decide) rfl
